import Mathlib

/-!
Verification model of the Altius MCP server (`src/index.ts`).

The server is a single TypeScript file exposing four read-only git tools
(`list_repos`, `search_code`, `read_file`, `list_branches`) over an SSE
session multiplexer.  This file gives a shallow embedding of its data model
and operations and proves the specification claims against it.

Modelling conventions:
* JavaScript strings are Lean `String`s; the JS string operations used by the
  server (`includes`, `startsWith`, `split('\n')`, `join('\n')`, `trim`) are
  re-implemented structurally on `List Char` so that the kernel can evaluate
  them (`jsIncludes`, `jsStartsWith`, `jsSplitNl`, `jsJoinNl`, `jsTrim`).
* The external `git` binary is an oracle `GitOracle : List String → String →
  Except String String` mapping an argument vector and working directory to
  the outcome `gitSpawn` would produce for that invocation (`Except.ok` =
  resolved, `Except.error` = rejected with the given message).
* A JS exception escaping a tool handler is an `Except.error`; a value
  returned by the handler is an `Except.ok`.  Each tool handler additionally
  returns the list of git invocations it performed, so "no subprocess was
  spawned" is expressible as that list being `[]`.
* The module-global `LOCAL_PATHS` record is an association list `Paths`
  (JS object keys enumerate in insertion order).
-/

namespace Altius

/-- Splits a character list at every occurrence of `c`; models the behaviour
of JS `String.prototype.split` with a single-character separator
(in particular `split` of the empty string yields one empty segment). -/
def splitCharData (c : Char) : List Char → List (List Char)
  | [] => [[]]
  | x :: xs =>
    let r := splitCharData c xs
    if x = c then [] :: r
    else
      match r with
      | [] => [[x]]
      | h :: t => (x :: h) :: t

/-- Model of JS `output.split('\n')`. -/
def jsSplitNl (s : String) : List String := (splitCharData '\n' s.data).map String.mk

/-- Joins character lists with a newline between consecutive elements. -/
def joinNlData : List (List Char) → List Char
  | [] => []
  | [x] => x
  | x :: y :: t => x ++ '\n' :: joinNlData (y :: t)

/-- Model of JS `lines.join('\n')`. -/
def jsJoinNl (ls : List String) : String := String.mk (joinNlData (ls.map String.data))

/-- Model of JS `String.prototype.trim`: drop whitespace from both ends. -/
def jsTrim (s : String) : String :=
  String.mk (((s.data.dropWhile Char.isWhitespace).reverse.dropWhile Char.isWhitespace).reverse)

/-- Decides whether `pat` occurs as a contiguous sublist of the second list. -/
def dataHasInfix (pat : List Char) : List Char → Bool
  | [] => pat.isEmpty
  | x :: xs => pat.isPrefixOf (x :: xs) || dataHasInfix pat xs

/-- Model of JS `s.includes(pat)` (substring containment). -/
def jsIncludes (s pat : String) : Bool := dataHasInfix pat.data s.data

/-- Model of JS `s.startsWith(pat)`. -/
def jsStartsWith (s pat : String) : Bool := pat.data.isPrefixOf s.data

/-- Model of the JS expression `o || d` applied to an optional string
(`undefined` and the empty string are both falsy). -/
def jsOrDefault (o : Option String) (d : String) : String :=
  match o with
  | none => d
  | some s => if s = "" then d else s

/-- Behaviour of the external git binary, as observed through `gitSpawn`:
argument vector and working directory to resolved payload or rejection
message. -/
abbrev GitOracle := List String → String → Except String String

/-- Classification performed by `gitSpawn`'s `close` handler
(`src/index.ts` lines 46-57): exit code 0 resolves with the trimmed stdout;
exit code 1 with `"grep"` among the arguments resolves with the empty
string; any other exit code rejects with the captured stderr behind a fixed
message, or `"Unknown error"` when stderr is empty. -/
def gitSpawnClose (args : List String) (code : Nat) (stdout stderr : String) :
    Except String String :=
  if code = 0 then .ok (jsTrim stdout)
  else if args.contains "grep" && code = 1 then .ok ""
  else .error ("Git command failed: " ++ (if stderr = "" then "Unknown error" else stderr))

/-- The `LOCAL_PATHS` record: association list from repository name to local
path, in insertion order. -/
abbrev Paths := List (String × String)

/-- Names listed by `Object.keys(LOCAL_PATHS)`, in insertion order. -/
def listedNames (p : Paths) : List String := p.map Prod.fst

/-- Assignment `LOCAL_PATHS[k] = v` on the association list: overwrites the
value in place when the key exists, otherwise appends the new entry. -/
def setEntry (p : Paths) (k v : String) : Paths :=
  if p.any (fun kv => kv.1 = k) then p.map (fun kv => if kv.1 = k then (k, v) else kv)
  else p ++ [(k, v)]

/-- Lookup `LOCAL_PATHS[k]`. -/
def lookupPath (p : Paths) (k : String) : Option String := p.lookup k

/-- The `CACHE_DIR` root (modulo the process working directory prefix). -/
def cacheDir : String := "repos"

/-- The `getPath` helper (`src/index.ts` lines 89-93): throws when the
repository name has no entry in `LOCAL_PATHS`. -/
def getPath (p : Paths) (repoName : String) : Except String String :=
  match lookupPath p repoName with
  | some v => .ok v
  | none => .error ("Repository " ++ repoName ++ " is not available.")

/-- The `ensureRepo` function (`src/index.ts` lines 63-78): registers the
local path in `LOCAL_PATHS` first, then either finds an existing `.git`
marker (modelled by the `fsHasGitDir` predicate) or clones via `gitSpawn`.
A clone rejection propagates out as an error. -/
def ensureRepo (git : GitOracle) (fsHasGitDir : String → Bool) (p : Paths)
    (name url : String) : Except String Paths :=
  let localPath := cacheDir ++ "/" ++ name
  let p1 := setEntry p name localPath
  if fsHasGitDir name then .ok p1
  else
    match git ["clone", url, name] cacheDir with
    | .ok _ => .ok p1
    | .error e => .error e

/-- The startup loop of `main` (`src/index.ts` lines 251-262): sequentially
ensures every configured repository that has a remote URL.  The loop body
`await ensureRepo(...)` is not wrapped in any try/catch, so the first
rejection aborts `main` before `app.listen` is reached; this is modelled by
the whole computation returning `Except.error`. -/
def mainClones (git : GitOracle) (fsHasGitDir : String → Bool) :
    List (String × Option String) → Paths → Except String Paths
  | [], p => .ok p
  | (_, none) :: rest, p => mainClones git fsHasGitDir rest p
  | (name, some url) :: rest, p =>
    match ensureRepo git fsHasGitDir p name url with
    | .ok p1 => mainClones git fsHasGitDir rest p1
    | .error e => .error e

/-- The `REPO_URLS` configuration record, parametrised by the three
environment variables. -/
def repoUrls (uRevm uAlloy uReth : Option String) : List (String × Option String) :=
  [("revm", uRevm), ("alloy", uAlloy), ("reth", uReth)]

/-- Text produced by the `list_repos` tool (`src/index.ts` lines 96-103). -/
def listReposText (p : Paths) : String :=
  "Active Repositories:\n" ++ jsJoinNl ((listedNames p).map (fun k => "- " ++ k))

/-- A value returned by a tool handler: the text content and the `isError`
flag (`isError` is only ever set by `read_file`'s path check; elsewhere the
field is absent in the source, i.e. false). -/
structure ToolResult where
  text : String
  isErr : Bool
deriving DecidableEq

/-- One recorded invocation of `gitSpawn`: argument vector and working
directory. -/
abbrev GitCall := List String × String

/-- Argument vector built by `search_code` (`src/index.ts` line 121). -/
def searchArgs (query ref filter : String) : List String :=
  ["grep", "-nI", query, ref, "--", filter]

/-- The truncation step of `search_code` (`src/index.ts` lines 127-130):
more than 50 lines are cut to the first 50 plus a marker counting the
omitted lines; otherwise the output is left alone. -/
def truncateSearch (output : String) : String :=
  let lines := jsSplitNl output
  if lines.length > 50 then
    jsJoinNl (lines.take 50) ++ "\n... (" ++ toString (lines.length - 50) ++ " more matches)"
  else output

/-- The `search_code` tool handler (`src/index.ts` lines 106-137).  Note
that `getPath` is called before the `try` block, so its exception escapes
the handler (`Except.error`); git failures inside the `try` are caught and
become `Error: ...` text. -/
def searchCode (git : GitOracle) (p : Paths) (repo query : String)
    (branch pathFilter : Option String) : Except String ToolResult × List GitCall :=
  match getPath p repo with
  | .error e => (.error e, [])
  | .ok cwd =>
    let ref := jsOrDefault branch "HEAD"
    let filter := jsOrDefault pathFilter "."
    let args := searchArgs query ref filter
    match git args cwd with
    | .ok out =>
      let output := truncateSearch out
      (.ok ⟨if output = "" then "No matches." else output, false⟩, [(args, cwd)])
    | .error e => (.ok ⟨"Error: " ++ e, false⟩, [(args, cwd)])

/-- The `read_file` tool handler (`src/index.ts` lines 140-164): `getPath`
before the `try` (its exception escapes), then the path-traversal check
before any git invocation, then `git show ref:path` with errors caught. -/
def readFile (git : GitOracle) (p : Paths) (repo filePath : String)
    (branch : Option String) : Except String ToolResult × List GitCall :=
  match getPath p repo with
  | .error e => (.error e, [])
  | .ok cwd =>
    let ref := jsOrDefault branch "HEAD"
    if jsIncludes filePath ".." || jsStartsWith filePath "/" then
      (.ok ⟨"Invalid path security check failed.", true⟩, [])
    else
      let args := ["show", ref ++ ":" ++ filePath]
      match git args cwd with
      | .ok out => (.ok ⟨out, false⟩, [(args, cwd)])
      | .error _ => (.ok ⟨"File not found or error reading.", false⟩, [(args, cwd)])

/-- The `list_branches` tool handler (`src/index.ts` lines 167-178): here
`getPath` is called inside the `try`, so every failure becomes the fixed
text. -/
def listBranches (git : GitOracle) (p : Paths) (repo : String) :
    Except String ToolResult × List GitCall :=
  match getPath p repo with
  | .error _ => (.ok ⟨"Error listing branches", false⟩, [])
  | .ok cwd =>
    match git ["branch", "-a"] cwd with
    | .ok out => (.ok ⟨out, false⟩, [(["branch", "-a"], cwd)])
    | .error _ => (.ok ⟨"Error listing branches", false⟩, [(["branch", "-a"], cwd)])

/-- Path components of a file path, split at `/`; used to state which paths
are genuine parent-directory traversals. -/
def pathComponents (s : String) : List String := (splitCharData '/' s.data).map String.mk

/-- Outcome of the `/messages` endpoint (`src/index.ts` lines 234-249). -/
inductive PostOutcome where
  | badRequest
  | notFound
  | forwarded (sessionId : String)
deriving DecidableEq

/-- The `/messages` handler: `!sessionId` (absent or empty string, both
falsy) gives 400; a non-empty identifier not in the transports map gives
404; otherwise the body is forwarded to the bound transport. -/
def handleMessages (sessionId : Option String) (transports : String → Bool) : PostOutcome :=
  match sessionId with
  | none => .badRequest
  | some s => if s = "" then .badRequest else if transports s then .forwarded s else .notFound

/-- Multiplexer state: which session ids are in the `transports` map and
which have a running keep-alive timer. -/
structure MuxState where
  transports : String → Bool
  timers : String → Bool

/-- Events observed by the multiplexer. -/
inductive MuxEvent where
  | openConn (sessionId : String)
  | closeConn (sessionId : String)
  | postMsg (sessionId : String)
deriving DecidableEq

/-- One multiplexer transition: `/sse` registers the transport and starts a
keep-alive timer (`src/index.ts` lines 205-218); the `close` handler clears
the timer and deletes the map entry (lines 221-225); a `/messages` post does
not change the state. -/
def muxStep (s : MuxState) : MuxEvent → MuxState
  | .openConn sid =>
    ⟨fun x => if x = sid then true else s.transports x,
     fun x => if x = sid then true else s.timers x⟩
  | .closeConn sid =>
    ⟨fun x => if x = sid then false else s.transports x,
     fun x => if x = sid then false else s.timers x⟩
  | .postMsg _ => s

/-- Runs a sequence of multiplexer events. -/
def muxRun (s : MuxState) (tr : List MuxEvent) : MuxState := tr.foldl muxStep s

/-- The multiplexer state at server start: no sessions, no timers. -/
def muxInit : MuxState := ⟨fun _ => false, fun _ => false⟩

/-- View of one session during a keep-alive tick: whether its interval timer
is still scheduled and whether its id is still in the transports map. -/
structure SessionView where
  timerActive : Bool
  inRoutingMap : Bool
deriving DecidableEq

/-- The keep-alive tick callback (`src/index.ts` lines 210-218): when the
response is already ended or closed it clears the interval and returns;
otherwise it calls `res.write(": keepalive\n\n")` and discards the result.
`writeOk` records whether that write succeeded; the source never inspects
it, which is exactly what the claims about write failures are about. -/
def keepAliveTick (streamEnded writeOk : Bool) (s : SessionView) : SessionView :=
  if streamEnded then { s with timerActive := false } else s

/-- A git oracle whose invocations all reject; used where no invocation is
expected to happen. -/
def gitNone : GitOracle := fun _ _ => .error "not reached"

/-- A git oracle whose invocations all resolve with empty output. -/
def gitAllOk : GitOracle := fun _ _ => .ok ""

/-- A filesystem where no cached clone exists yet. -/
def fsNone : String → Bool := fun _ => false

/-- A `LOCAL_PATHS` state in which only `reth` was prepared. -/
def pReth : Paths := [("reth", "repos/reth")]

/-- A `LOCAL_PATHS` state in which only `alloy` was prepared. -/
def pAlloy : Paths := [("alloy", "repos/alloy")]

/-- A `LOCAL_PATHS` state in which all three repositories were prepared. -/
def pAll : Paths := [("revm", "repos/revm"), ("alloy", "repos/alloy"), ("reth", "repos/reth")]

/-- A configuration in which all three repository URLs are set. -/
def cfgAll : List (String × Option String) :=
  repoUrls (some "https://example.com/revm.git") (some "https://example.com/alloy.git")
    (some "https://example.com/reth.git")

/-- A git oracle where cloning `revm` fails and everything else succeeds. -/
def gitRevmCloneFails : GitOracle := fun args _ =>
  if args = ["clone", "https://example.com/revm.git", "revm"] then
    .error "Git command failed: fatal: could not read from remote repository"
  else .ok ""

/-- Search output with exactly three matching lines. -/
def out3 : String :=
  "contracts/a.sol:10:SafeMath\ncontracts/a.sol:20:SafeMath\ncontracts/b.sol:7:SafeMath"

/-- A git oracle whose searches return `out3`. -/
def gitThree : GitOracle := fun _ _ => .ok out3

/-- Search output with exactly 51 matching lines. -/
def out51 : String := jsJoinNl (List.replicate 51 "m")

/-- A git oracle whose searches return `out51`. -/
def gitFiftyOne : GitOracle := fun _ _ => .ok out51

/-- Helper: appending a string with nonempty data never yields the empty
string. -/
theorem append_ne_empty_right (a b : String) (hb : b.data ≠ []) : a ++ b ≠ "" := by
  intro h
  have hd := congrArg String.data h
  rw [String.data_append] at hd
  exact hb (List.append_eq_nil.mp hd).2

/-- Helper: a string of the shape `ref ++ ":" ++ path` is never the literal
`"grep"`, because it contains a colon. -/
theorem show_arg_ne_grep (a b : String) : a ++ ":" ++ b ≠ "grep" := by
  intro h
  have hd := congrArg String.data h
  rw [String.data_append, String.data_append] at hd
  have hc : ':' ∈ a.data ++ ":".data ++ b.data := by
    refine List.mem_append_left _ (List.mem_append_right _ ?_)
    decide
  rw [hd] at hc
  exact absurd hc (by decide)

/-- Helper: when the repository resolves and the path trips the security
check, `read_file` returns the invalid-path result and performs no git
call. -/
theorem readFile_flagged (git : GitOracle) (p : Paths) (repo cwd fp : String)
    (branch : Option String) (hrepo : lookupPath p repo = some cwd)
    (hbad : jsIncludes fp ".." = true ∨ jsStartsWith fp "/" = true) :
    readFile git p repo fp branch = (.ok ⟨"Invalid path security check failed.", true⟩, []) := by
  unfold readFile getPath
  rw [hrepo]
  rcases hbad with h | h <;> simp [h]

/-- C2: for every `read_file` input path that contains a parent-directory
traversal marker (the substring `..`) or begins with the filesystem root
marker `/`, the handler returns the `InvalidPath` error result
(`"Invalid path security check failed."` with `isError = true`) and performs
zero git invocations. -/
theorem read_file_rejects_traversal_before_spawn (git : GitOracle) (p : Paths)
    (repo cwd fp : String) (branch : Option String)
    (hrepo : lookupPath p repo = some cwd)
    (hbad : jsIncludes fp ".." = true ∨ jsStartsWith fp "/" = true) :
    readFile git p repo fp branch = (.ok ⟨"Invalid path security check failed.", true⟩, []) :=
  readFile_flagged git p repo cwd fp branch hrepo hbad

/-- Witness for C2 at the spec scenario `read_file(repo="reth",
path="../../etc/passwd")`. -/
theorem read_file_rejects_traversal_before_spawn_witness :
    readFile gitNone pReth "reth" "../../etc/passwd" none =
      (.ok ⟨"Invalid path security check failed.", true⟩, []) :=
  read_file_rejects_traversal_before_spawn gitNone pReth "reth" "repos/reth"
    "../../etc/passwd" none rfl (Or.inl (by decide))

/-- C10: the `..` check is a plain substring test, so a path containing `..`
inside a single filename component — one whose `/`-separated components never
equal `..`, hence no parent-directory traversal — is still rejected with the
invalid-path result, making such legitimately named files unreadable. -/
theorem read_file_overblocks_dotdot_filenames (git : GitOracle) (p : Paths)
    (repo cwd fp : String) (branch : Option String)
    (hrepo : lookupPath p repo = some cwd)
    (hdots : jsIncludes fp ".." = true)
    (hnotraversal : ".." ∉ pathComponents fp) :
    readFile git p repo fp branch = (.ok ⟨"Invalid path security check failed.", true⟩, []) :=
  readFile_flagged git p repo cwd fp branch hrepo (Or.inl hdots)

/-- Witness for C10 at the single-component filename `a..b`. -/
theorem read_file_overblocks_dotdot_filenames_witness :
    readFile gitNone pReth "reth" "a..b" none =
      (.ok ⟨"Invalid path security check failed.", true⟩, []) :=
  read_file_overblocks_dotdot_filenames gitNone pReth "reth" "repos/reth" "a..b" none rfl
    (by decide) (by decide)

/-- C3: exit code 0 resolves with the trimmed stdout; exit code 1 resolves
with the empty payload exactly when the invocation is the search operation
(the argument vector contains the standalone element `"grep"`, which the
`search_code` vector always does and the `show`/`branch` vectors never do);
any other failure rejects with the captured stderr, or a generic message
when stderr is empty. -/
theorem git_spawn_exit_code_policy (args : List String) (code : Nat) (stdout stderr : String) :
    (code = 0 → gitSpawnClose args code stdout stderr = .ok (jsTrim stdout)) ∧
    (code = 1 → args.contains "grep" = true → gitSpawnClose args code stdout stderr = .ok "") ∧
    (code ≠ 0 → args.contains "grep" = false →
      gitSpawnClose args code stdout stderr =
        .error ("Git command failed: " ++ (if stderr = "" then "Unknown error" else stderr))) ∧
    (code ≠ 0 → code ≠ 1 →
      gitSpawnClose args code stdout stderr =
        .error ("Git command failed: " ++ (if stderr = "" then "Unknown error" else stderr))) ∧
    (∀ query ref filter, (searchArgs query ref filter).contains "grep" = true) ∧
    (∀ ref fp, (["show", ref ++ ":" ++ fp] : List String).contains "grep" = false) ∧
    (["branch", "-a"] : List String).contains "grep" = false := by
  refine ⟨?_, ?_, ?_, ?_, ?_, ?_, by decide⟩
  · intro h
    simp [gitSpawnClose, h]
  · intro h hg
    have hmem : "grep" ∈ args := by simpa using hg
    simp [gitSpawnClose, h, hmem]
  · intro h hg
    have hmem : "grep" ∉ args := by simpa using hg
    simp [gitSpawnClose, h, hmem]
  · intro h0 h1
    simp [gitSpawnClose, h0, h1]
  · intro query ref filter
    simp [searchArgs, List.contains]
  · intro ref fp
    have hne : ("grep" == (ref ++ ":" ++ fp)) = false :=
      beq_eq_false_iff_ne.mpr (fun hh => show_arg_ne_grep ref fp hh.symm)
    simp [List.contains, List.elem, hne]

/-- Witness for C3: no-match search exit (code 1 with grep) succeeds empty;
the same exit code on a non-search vector fails with the captured stderr. -/
theorem git_spawn_exit_code_policy_witness :
    gitSpawnClose ["grep", "-nI", "q", "HEAD", "--", "."] 1 "out" "" = .ok "" ∧
    gitSpawnClose ["branch", "-a"] 1 "" "boom" = .error "Git command failed: boom" :=
  ⟨(git_spawn_exit_code_policy ["grep", "-nI", "q", "HEAD", "--", "."] 1 "out" "").2.1 rfl
      (by decide),
   (git_spawn_exit_code_policy ["branch", "-a"] 1 "" "boom").2.2.1 (by decide) (by decide)⟩

/-- Counterexample for C7: a request whose `sessionId` query parameter is
present but empty matches no open session, yet the code answers 400
(`badRequest`, via the falsy `!sessionId` test), not the 404 the claim
promises for every present-but-unmatched identifier. -/
theorem messages_empty_session_id_is_bad_request :
    handleMessages (some "") (fun _ => false) = .badRequest ∧
    handleMessages (some "") (fun _ => false) ≠ .notFound :=
  ⟨rfl, by decide⟩

/-- C7 as amended: an absent or empty session identifier yields 400; a
present non-empty identifier bound to no open session yields 404; otherwise
the body is forwarded to the bound transport.  The handler is a total
function into these three outcomes, so an unknown identifier is never fatal
to the server. -/
theorem messages_endpoint_routing (sessionId : Option String) (t : String → Bool) :
    (sessionId = none → handleMessages sessionId t = .badRequest) ∧
    (sessionId = some "" → handleMessages sessionId t = .badRequest) ∧
    (∀ s, sessionId = some s → s ≠ "" → t s = false → handleMessages sessionId t = .notFound) ∧
    (∀ s, sessionId = some s → s ≠ "" → t s = true → handleMessages sessionId t = .forwarded s) := by
  refine ⟨?_, ?_, ?_, ?_⟩ <;> intros <;> subst_vars <;> simp [handleMessages, *]

/-- Witness for C7's amended claim at a dead session identifier. -/
theorem messages_endpoint_routing_witness :
    handleMessages (some "dead-session") (fun _ => false) = .notFound :=
  (messages_endpoint_routing (some "dead-session") (fun _ => false)).2.2.1 "dead-session" rfl
    (by decide) rfl

/-- C9 (code bug): the keep-alive tick ignores the outcome of `res.write`
entirely — when the stream is not yet marked ended, the tick leaves the
session state unchanged for every write outcome, so a failed write neither
cancels the timer nor removes the routing-map entry; and even the
already-ended branch only clears the timer, never the map entry. -/
theorem keepalive_write_failure_not_handled :
    (∀ (writeOk : Bool) (s : SessionView), keepAliveTick false writeOk s = s) ∧
    keepAliveTick false false ⟨true, true⟩ = ⟨true, true⟩ ∧
    (keepAliveTick true false ⟨true, true⟩).inRoutingMap = true :=
  ⟨fun _ _ => rfl, rfl, rfl⟩

/-- Counterexample for C1: for a name that was never prepared, `search_code`
and `read_file` call `getPath` before their `try` blocks, so the
`RepositoryUnavailable` exception escapes the handler (`Except.error`)
instead of producing their designated failure texts. -/
theorem unavailable_repo_escapes_handlers :
    (searchCode gitNone [] "reth" "SafeMath" none none).1 =
      .error "Repository reth is not available." ∧
    (readFile gitNone [] "reth" "README.md" none).1 =
      .error "Repository reth is not available." :=
  ⟨rfl, rfl⟩

/-- C1 as amended: for every name absent from `LOCAL_PATHS`, `getPath` fails
with the `RepositoryUnavailable` message and no git process is spawned by
any of the three tools; `list_branches` (whose `getPath` call sits inside
its `try`) returns its designated failure text, but `search_code` and
`read_file` let the error propagate out of the handler instead of returning
theirs. -/
theorem unavailable_repo_behavior (git : GitOracle) (p : Paths) (repo query fp : String)
    (branch filter : Option String) (h : lookupPath p repo = none) :
    getPath p repo = .error ("Repository " ++ repo ++ " is not available.") ∧
    (searchCode git p repo query branch filter).1 =
      .error ("Repository " ++ repo ++ " is not available.") ∧
    (searchCode git p repo query branch filter).2 = [] ∧
    (readFile git p repo fp branch).1 =
      .error ("Repository " ++ repo ++ " is not available.") ∧
    (readFile git p repo fp branch).2 = [] ∧
    (listBranches git p repo).1 = .ok ⟨"Error listing branches", false⟩ ∧
    (listBranches git p repo).2 = [] := by
  have hg : getPath p repo = .error ("Repository " ++ repo ++ " is not available.") := by
    simp [getPath, h]
  refine ⟨hg, ?_, ?_, ?_, ?_, ?_, ?_⟩ <;> simp [searchCode, readFile, listBranches, hg]

/-- Witness for C1's amended claim with an empty `LOCAL_PATHS`. -/
theorem unavailable_repo_behavior_witness :
    getPath [] "reth" = .error ("Repository " ++ "reth" ++ " is not available.") ∧
    (searchCode gitNone [] "reth" "SafeMath" none none).1 =
      .error ("Repository " ++ "reth" ++ " is not available.") ∧
    (searchCode gitNone [] "reth" "SafeMath" none none).2 = [] ∧
    (readFile gitNone [] "reth" "README.md" none).1 =
      .error ("Repository " ++ "reth" ++ " is not available.") ∧
    (readFile gitNone [] "reth" "README.md" none).2 = [] ∧
    (listBranches gitNone [] "reth").1 = .ok ⟨"Error listing branches", false⟩ ∧
    (listBranches gitNone [] "reth").2 = [] :=
  unavailable_repo_behavior gitNone [] "reth" "SafeMath" "README.md" none none rfl

/-- C4: when the successful search output has more than 50 lines, the
returned text is exactly the first 50 lines followed by the trailing marker
stating the exact number of omitted lines; with at most 50 lines (and a
nonempty output, the empty case being the designated `"No matches."` text)
the output is returned unchanged, with no marker. -/
theorem search_truncation_law (git : GitOracle) (p : Paths) (repo query cwd out : String)
    (branch pathFilter : Option String)
    (hrepo : lookupPath p repo = some cwd)
    (hgit : git (searchArgs query (jsOrDefault branch "HEAD") (jsOrDefault pathFilter ".")) cwd =
      .ok out) :
    ((jsSplitNl out).length > 50 →
      (searchCode git p repo query branch pathFilter).1 =
        .ok ⟨jsJoinNl ((jsSplitNl out).take 50) ++ "\n... (" ++
              toString ((jsSplitNl out).length - 50) ++ " more matches)", false⟩) ∧
    ((jsSplitNl out).length ≤ 50 → out ≠ "" →
      (searchCode git p repo query branch pathFilter).1 = .ok ⟨out, false⟩) := by
  have hg : getPath p repo = .ok cwd := by simp [getPath, hrepo]
  constructor
  · intro hlen
    have htr : truncateSearch out =
        jsJoinNl ((jsSplitNl out).take 50) ++ "\n... (" ++
          toString ((jsSplitNl out).length - 50) ++ " more matches)" := by
      simp [truncateSearch, hlen]
    have hne : jsJoinNl ((jsSplitNl out).take 50) ++ "\n... (" ++
        toString ((jsSplitNl out).length - 50) ++ " more matches)" ≠ "" :=
      append_ne_empty_right _ " more matches)" (by decide)
    simp [searchCode, hg, hgit, htr, hne]
  · intro hlen hne
    have htr : truncateSearch out = out := by
      simp [truncateSearch, Nat.not_lt.mpr hlen]
    simp [searchCode, hg, hgit, htr, hne]

/-- Witness for C4: the spec scenario with exactly 3 matching lines comes
back unchanged and unmarked, and a 51-line output is cut to the first 50
lines plus the marker. -/
theorem search_truncation_law_witness :
    (searchCode gitThree pAlloy "alloy" "SafeMath" none none).1 = .ok ⟨out3, false⟩ ∧
    (searchCode gitFiftyOne pAlloy "alloy" "m" none none).1 =
      .ok ⟨jsJoinNl ((jsSplitNl out51).take 50) ++ "\n... (" ++
            toString ((jsSplitNl out51).length - 50) ++ " more matches)", false⟩ :=
  ⟨(search_truncation_law gitThree pAlloy "alloy" "SafeMath" "repos/alloy" out3 none none
      rfl rfl).2 (by decide) (by decide),
   (search_truncation_law gitFiftyOne pAlloy "alloy" "m" "repos/alloy" out51 none none
      rfl rfl).1 (by decide)⟩

/-- C5 (code bug): a startup clone failure is not caught anywhere — the
rejection from `gitSpawn` propagates out of `ensureRepo` and out of `main`'s
loop, so every repository configured after the failing one is never
prepared, and `app.listen` is never reached. -/
theorem clone_failure_aborts_startup (git : GitOracle) (fs : String → Bool)
    (name url e : String) (rest : List (String × Option String)) (p : Paths)
    (hfs : fs name = false) (hclone : git ["clone", url, name] cacheDir = .error e) :
    mainClones git fs ((name, some url) :: rest) p = .error e := by
  simp [mainClones, ensureRepo, hfs, hclone]

/-- Witness for C5: with all three URLs configured and `revm`'s clone
failing, startup aborts with that error and `alloy`/`reth` are never
prepared. -/
theorem clone_failure_aborts_startup_witness :
    mainClones gitRevmCloneFails fsNone cfgAll [] =
      .error "Git command failed: fatal: could not read from remote repository" :=
  clone_failure_aborts_startup gitRevmCloneFails fsNone "revm" "https://example.com/revm.git"
    "Git command failed: fatal: could not read from remote repository"
    [("alloy", some "https://example.com/alloy.git"), ("reth", some "https://example.com/reth.git")]
    [] rfl rfl

/-- Helper: once a session id is out of both maps, it stays out across any
events that do not open that very id again. -/
theorem muxRun_keeps_absent (sid : String) :
    ∀ (tr : List MuxEvent) (s : MuxState),
      s.transports sid = false → s.timers sid = false →
      (∀ e ∈ tr, e ≠ MuxEvent.openConn sid) →
      (muxRun s tr).transports sid = false ∧ (muxRun s tr).timers sid = false := by
  intro tr
  induction tr with
  | nil => exact fun s h1 h2 _ => ⟨h1, h2⟩
  | cons e rest ih =>
    intro s h1 h2 hall
    have hrest : ∀ x ∈ rest, x ≠ MuxEvent.openConn sid :=
      fun x hx => hall x (List.mem_cons_of_mem _ hx)
    have he := hall e (List.mem_cons_self _ _)
    have hstep : muxRun s (e :: rest) = muxRun (muxStep s e) rest := rfl
    rw [hstep]
    cases e with
    | openConn sid2 =>
      have hne : sid ≠ sid2 := fun hh => he (by rw [hh])
      exact ih (muxStep s (MuxEvent.openConn sid2)) (by simp [muxStep, hne, h1])
        (by simp [muxStep, hne, h2]) hrest
    | closeConn sid2 =>
      refine ih (muxStep s (MuxEvent.closeConn sid2)) ?_ ?_ hrest <;>
        by_cases hh : sid = sid2 <;> simp [muxStep, hh, h1, h2]
    | postMsg sid2 => exact ih s h1 h2 hrest

/-- C8: after a streaming connection closes, the session id is gone from the
transports map and its keep-alive timer is cancelled; as long as no later
connection opens under the same id (ids are never reused), every subsequent
`/messages` request carrying that id gets the 404 not-found response. -/
theorem session_close_cleanup (s0 : MuxState) (pre post : List MuxEvent) (sid : String)
    (hpost : ∀ e ∈ post, e ≠ MuxEvent.openConn sid) (hsid : sid ≠ "") :
    (muxRun s0 (pre ++ MuxEvent.closeConn sid :: post)).transports sid = false ∧
    (muxRun s0 (pre ++ MuxEvent.closeConn sid :: post)).timers sid = false ∧
    handleMessages (some sid) (muxRun s0 (pre ++ MuxEvent.closeConn sid :: post)).transports =
      .notFound := by
  have hsplit : muxRun s0 (pre ++ MuxEvent.closeConn sid :: post) =
      muxRun (muxStep (muxRun s0 pre) (MuxEvent.closeConn sid)) post := by
    simp [muxRun, List.foldl_append]
  have h1 : (muxStep (muxRun s0 pre) (MuxEvent.closeConn sid)).transports sid = false := by
    simp [muxStep]
  have h2 : (muxStep (muxRun s0 pre) (MuxEvent.closeConn sid)).timers sid = false := by
    simp [muxStep]
  obtain ⟨ha, hb⟩ := muxRun_keeps_absent sid post _ h1 h2 hpost
  rw [hsplit]
  exact ⟨ha, hb, by simp [handleMessages, hsid, ha]⟩

/-- Witness for C8 on a concrete trace: session `a` opens and closes, then a
message for `a` arrives and an unrelated session `b` opens. -/
theorem session_close_cleanup_witness :
    (muxRun muxInit ([MuxEvent.openConn "a"] ++ MuxEvent.closeConn "a" ::
        [MuxEvent.postMsg "a", MuxEvent.openConn "b"])).transports "a" = false ∧
    (muxRun muxInit ([MuxEvent.openConn "a"] ++ MuxEvent.closeConn "a" ::
        [MuxEvent.postMsg "a", MuxEvent.openConn "b"])).timers "a" = false ∧
    handleMessages (some "a") (muxRun muxInit ([MuxEvent.openConn "a"] ++
        MuxEvent.closeConn "a" :: [MuxEvent.postMsg "a", MuxEvent.openConn "b"])).transports =
      .notFound :=
  session_close_cleanup muxInit [MuxEvent.openConn "a"]
    [MuxEvent.postMsg "a", MuxEvent.openConn "b"] "a" (by decide) (by decide)

/-- Preparation of a repository succeeds when an existing clone is found or
the fresh clone resolves. -/
def preparedOk (git : GitOracle) (fs : String → Bool) (name url : String) : Prop :=
  fs name = true ∨ ∃ out, git ["clone", url, name] cacheDir = .ok out

/-- Helper: key membership after a record assignment. -/
theorem listedNames_setEntry (p : Paths) (k v name : String) :
    name ∈ listedNames (setEntry p k v) ↔ name ∈ listedNames p ∨ name = k := by
  unfold setEntry
  split
  · next hany =>
    rw [List.any_eq_true] at hany
    obtain ⟨kv0, hkv0mem, hkv0d⟩ := hany
    have hk0 : kv0.1 = k := of_decide_eq_true hkv0d
    simp only [listedNames, List.map_map, List.mem_map, Function.comp_apply]
    constructor
    · rintro ⟨a, ha, hname⟩
      by_cases h : a.1 = k
      · rw [if_pos h] at hname
        exact Or.inr hname.symm
      · rw [if_neg h] at hname
        exact Or.inl ⟨a, ha, hname⟩
    · rintro (⟨a, ha, hname⟩ | rfl)
      · by_cases h : a.1 = k
        · exact ⟨a, ha, by rw [if_pos h, ← hname, h]⟩
        · exact ⟨a, ha, by rw [if_neg h]; exact hname⟩
      · exact ⟨kv0, hkv0mem, by rw [if_pos hk0]⟩
  · next =>
    simp only [listedNames, List.map_append, List.mem_append, List.map_cons, List.map_nil,
      List.mem_cons, List.not_mem_nil, or_false]

/-- Helper: after a successful startup loop, the keys of `LOCAL_PATHS` are
the keys it started with plus exactly the configured names with a URL, all
of which were prepared successfully. -/
theorem mainClones_mem (git : GitOracle) (fs : String → Bool) :
    ∀ (cfg : List (String × Option String)) (acc p : Paths),
      mainClones git fs cfg acc = .ok p → ∀ name,
        (name ∈ listedNames p ↔ name ∈ listedNames acc ∨
          ∃ url, (name, some url) ∈ cfg ∧ preparedOk git fs name url) := by
  intro cfg
  induction cfg with
  | nil =>
    intro acc p h name
    have hap : acc = p := by simpa [mainClones] using h
    subst hap
    simp
  | cons entry rest ih =>
    intro acc p h name
    obtain ⟨n, u⟩ := entry
    cases u with
    | none =>
      have h2 := ih acc p (by simpa [mainClones] using h) name
      rw [h2]
      constructor
      · rintro (ha | ⟨url, hu, hp⟩)
        · exact Or.inl ha
        · exact Or.inr ⟨url, List.mem_cons_of_mem _ hu, hp⟩
      · rintro (ha | ⟨url, hu, hp⟩)
        · exact Or.inl ha
        · rcases List.mem_cons.mp hu with heq | hrest2
          · exact absurd (congrArg (fun q => q.2) heq) (by simp)
          · exact Or.inr ⟨url, hrest2, hp⟩
    | some url0 =>
      by_cases hfs : fs n = true
      · have hrec : mainClones git fs rest (setEntry acc n (cacheDir ++ "/" ++ n)) = .ok p := by
          simpa [mainClones, ensureRepo, hfs] using h
        have h2 := ih _ p hrec name
        rw [h2, listedNames_setEntry]
        constructor
        · rintro ((ha | rfl) | ⟨url, hu, hp⟩)
          · exact Or.inl ha
          · exact Or.inr ⟨url0, List.mem_cons_self _ _, Or.inl hfs⟩
          · exact Or.inr ⟨url, List.mem_cons_of_mem _ hu, hp⟩
        · rintro (ha | ⟨url, hu, hp⟩)
          · exact Or.inl (Or.inl ha)
          · rcases List.mem_cons.mp hu with heq | hrest2
            · exact Or.inl (Or.inr (congrArg (fun q => q.1) heq))
            · exact Or.inr ⟨url, hrest2, hp⟩
      · have hfs2 : fs n = false := by
          cases hx : fs n
          · rfl
          · exact absurd hx hfs
        cases hcl : git ["clone", url0, n] cacheDir with
        | ok out =>
          have hrec : mainClones git fs rest (setEntry acc n (cacheDir ++ "/" ++ n)) = .ok p := by
            simpa [mainClones, ensureRepo, hfs2, hcl] using h
          have h2 := ih _ p hrec name
          rw [h2, listedNames_setEntry]
          constructor
          · rintro ((ha | rfl) | ⟨url, hu, hp⟩)
            · exact Or.inl ha
            · exact Or.inr ⟨url0, List.mem_cons_self _ _, Or.inr ⟨out, hcl⟩⟩
            · exact Or.inr ⟨url, List.mem_cons_of_mem _ hu, hp⟩
          · rintro (ha | ⟨url, hu, hp⟩)
            · exact Or.inl (Or.inl ha)
            · rcases List.mem_cons.mp hu with heq | hrest2
              · exact Or.inl (Or.inr (congrArg (fun q => q.1) heq))
              · exact Or.inr ⟨url, hrest2, hp⟩
        | error e =>
          exact absurd h (by simp [mainClones, ensureRepo, hfs2, hcl])

/-- C6: when startup completes (the only situation in which the server
listens and `list_repos` can be called), the names in `LOCAL_PATHS` — which
`list_repos` prints, with no failure path — are exactly the configured names
whose preparation (existing clone or fresh clone) completed successfully. -/
theorem list_repos_exactly_prepared (git : GitOracle) (fs : String → Bool)
    (cfg : List (String × Option String)) (p : Paths)
    (h : mainClones git fs cfg [] = .ok p) (name : String) :
    (name ∈ listedNames p ↔ ∃ url, (name, some url) ∈ cfg ∧ preparedOk git fs name url) ∧
    listReposText p =
      "Active Repositories:\n" ++ jsJoinNl ((listedNames p).map (fun k => "- " ++ k)) := by
  have h2 := mainClones_mem git fs cfg [] p h name
  exact ⟨by simpa [listedNames] using h2, rfl⟩

/-- Witness for C6: a fully successful startup over the three configured
repositories lists exactly those three names. -/
theorem list_repos_exactly_prepared_witness :
    (("alloy" ∈ listedNames pAll) ↔
      ∃ url, (("alloy", some url) ∈ cfgAll) ∧ preparedOk gitAllOk fsNone "alloy" url) ∧
    listReposText pAll =
      "Active Repositories:\n" ++ jsJoinNl ((listedNames pAll).map (fun k => "- " ++ k)) :=
  list_repos_exactly_prepared gitAllOk fsNone cfgAll pAll rfl "alloy"

end Altius
